import Mathlib

/-!
Verification of the golog dispatch core (`vendor/github.com/kataras/golog/logger.go`):
level filtering, handler-chain dispatch, record pooling, line formatting, cloning and
the child-logger registry.  Pure functions are embedded directly; the stateful print
path is embedded as an explicit event trace; the concurrent registry is embedded as a
two-thread interleaving over the shared map, one atomic lock-protected region per step.
-/

namespace Golog

/-- Severity tiers.  Modelled from the spec: the level-constant definitions of the
repository are not under `src/`; the spec fixes the order Disabled < Error < Warn <
Info < Debug with Disabled the level-less tier, and `Logger.print` compares them with
integer `>=`, so levels are embedded as naturals. -/
abbrev Level := Nat

def DisableLevel : Level := 0

def ErrorLevel : Level := 1

def WarnLevel : Level := 2

def InfoLevel : Level := 3

def DebugLevel : Level := 4

/-- Modelled from the spec: `GetTextForLevel` is not under `src/`; the spec gives the
tags "ERRO"/"WARN"/"INFO"/"DBUG" for the four severities and an empty tag for the
level-less tier (color styling off, i.e. a non-terminal destination). -/
def GetTextForLevel (l : Level) : String :=
  if l = ErrorLevel then "ERRO"
  else if l = WarnLevel then "WARN"
  else if l = InfoLevel then "INFO"
  else if l = DebugLevel then "DBUG"
  else ""

/-- One log record.  Modelled from the spec: the `Log` type's file is not under
`src/`; per the spec it carries the owning Logger (a back-reference, embedded as an
id), the severity, the message, the creation time (embedded as a natural) and the
newline flag.  Field writes in `logger.go` (`acquireLog`) match these fields. -/
structure Log where
  loggerRef : Nat
  lvl : Level
  message : String
  time : Nat
  newLine : Bool
deriving DecidableEq

/-- `Logger.acquireLog` (logger.go:52-64): take an idle record from the pool if one
exists, otherwise construct a fresh one bound to this logger; then overwrite the
NewLine, Time, Level and Message fields.  The pool is the explicit list of idle
records; the reused record's back-reference is kept, exactly as in the source. -/
def acquireLog (self : Nat) (pool : List Log) (level : Level) (msg : String)
    (withPrintln : Bool) (now : Nat) : Log × List Log :=
  match pool with
  | [] =>
      ({ loggerRef := self, lvl := level, message := msg, time := now,
         newLine := withPrintln }, [])
  | log :: rest =>
      ({ log with
          newLine := withPrintln, time := now, lvl := level,
          message := msg }, rest)

/-- `Logger.releaseLog` (logger.go:67-69): put the record back into the idle set. -/
def releaseLog (pool : List Log) (log : Log) : List Log :=
  log :: pool

/-- A handler (logger.go:25): reports whether it handled the record. -/
abbrev Handler := Log → Bool

/-- `Logger.handled` (logger.go:296-303) instrumented with the invocation trace:
the second component lists the indices of the handlers actually invoked, in order.
The loop calls each handler and returns `true` at the first one reporting `true`,
`false` after the whole chain (or an empty chain) reported `false`. -/
def handledFrom (hs : List Handler) (value : Log) (i : Nat) : Bool × List Nat :=
  match hs with
  | [] => (false, [])
  | h :: rest =>
      if h value then (true, [i])
      else
        let r := handledFrom rest value (i + 1)
        (r.1, i :: r.2)

/-- `Logger.handled`: the boolean result of the chain. -/
def handled (hs : List Handler) (value : Log) : Bool :=
  (handledFrom hs value 0).1

/-- Observable steps of one `Logger.print` call: record acquisition, each handler
invocation (by index), the write to the Sink (`Printer.Print` / `Printer.Println`),
and the release of the record back to the pool. -/
inductive Event where
  | acquire (log : Log)
  | invoke (idx : Nat)
  | sinkPrint (log : Log)
  | sinkPrintln (log : Log)
  | release (log : Log)
deriving DecidableEq

def isSinkE : Event → Bool
  | .sinkPrint _ => true
  | .sinkPrintln _ => true
  | _ => false

def isReleaseE : Event → Bool
  | .release _ => true
  | _ => false

def hasSink (evs : List Event) : Bool :=
  evs.any isSinkE

/-- `Logger.print` (logger.go:157-175) as its event trace.  If the configured
threshold is `>=` the call's level: acquire a record, run the handler chain, and
when no handler handled it write it to the Sink with `Println` when the newline
flag is set and `Print` otherwise; finally release the record.  Below threshold
nothing happens at all. -/
def printGo (threshold : Level) (hs : List Handler) (self : Nat) (pool : List Log)
    (level : Level) (msg : String) (newLine : Bool) (now : Nat) : List Event :=
  if threshold ≥ level then
    let log := (acquireLog self pool level msg newLine now).1
    let hr := handledFrom hs log 0
    Event.acquire log ::
      (hr.2.map Event.invoke ++
        (if hr.1 then []
         else [if newLine then Event.sinkPrintln log else Event.sinkPrint log]) ++
        [Event.release log])
  else []

/-- Arguments a public print method passes to `Logger.print`.  The variadic
`fmt.Sprint`/`fmt.Sprintf` interpolation is external to the core: methods receive
the already-rendered message text. -/
structure PrintArgs where
  lvl : Level
  msg : String
  newLine : Bool
deriving DecidableEq

/-- `Logger.Print` (logger.go:178-180): level-less, no trailing newline. -/
def Print (msg : String) : PrintArgs := ⟨DisableLevel, msg, false⟩

/-- `Logger.Println` (logger.go:184-186): level-less, with trailing newline. -/
def Println (msg : String) : PrintArgs := ⟨DisableLevel, msg, true⟩

/-- `Logger.Log` (logger.go:191-193): leveled, with trailing newline. -/
def LogM (level : Level) (msg : String) : PrintArgs := ⟨level, msg, true⟩

/-- `Logger.Logf` (logger.go:198-201): formats then delegates to `Log`. -/
def Logf (level : Level) (msg : String) : PrintArgs := LogM level msg

/-- `Logger.Error` (logger.go:204-206). -/
def ErrorM (msg : String) : PrintArgs := LogM ErrorLevel msg

/-- `Logger.Errorf` (logger.go:209-212). -/
def Errorf (msg : String) : PrintArgs := ErrorM msg

/-- `Logger.Warn` (logger.go:215-217). -/
def Warn (msg : String) : PrintArgs := LogM WarnLevel msg

/-- `Logger.Warnf` (logger.go:220-223). -/
def Warnf (msg : String) : PrintArgs := Warn msg

/-- `Logger.Info` (logger.go:226-228). -/
def Info (msg : String) : PrintArgs := LogM InfoLevel msg

/-- `Logger.Infof` (logger.go:231-234). -/
def Infof (msg : String) : PrintArgs := Info msg

/-- `Logger.Debug` (logger.go:237-239). -/
def Debug (msg : String) : PrintArgs := LogM DebugLevel msg

/-- `Logger.Debugf` (logger.go:242-245). -/
def Debugf (msg : String) : PrintArgs := Debug msg

/-- Run `Logger.print` on the arguments assembled by a public method. -/
def printInvoke (threshold : Level) (hs : List Handler) (self : Nat)
    (pool : List Log) (a : PrintArgs) (now : Nat) : List Event :=
  printGo threshold hs self pool a.lvl a.msg a.newLine now

/-- Modelled from the spec: `Log.FormatTime` is not under `src/`; the spec says the
timestamp segment is produced from the owning Logger's TimeFormat and is empty when
TimeFormat is empty.  The rendering of a non-empty format is abstracted as a given
function of the format and the record's time. -/
def FormatTime (render : String → Nat → String) (timeFormat : String) (t : Nat) :
    String :=
  if timeFormat = "" then "" else render timeFormat t

/-- The line built by `logHijacker` (logger.go:81-89) before the Logger's prefix is
applied: the level tag, a space after it when it is non-empty, then the formatted
time and a space after it when it is non-empty, then the message. -/
def hijackLine (lvl : Level) (timeText msg : String) : String :=
  let line := GetTextForLevel lvl
  let line := if line ≠ "" then line ++ " " else line
  let line := if timeText ≠ "" then line ++ timeText ++ " " else line
  line ++ msg

/-- `logHijacker` (logger.go:74-100): build the line, then prepend the owning
Logger's raw prefix bytes when the prefix is non-empty (`timeText` stands for the
record's `FormatTime()` result, which the hijacker reads). -/
def logHijacker (pfx : String) (lvl : Level) (timeText msg : String) : String :=
  let line := hijackLine lvl timeText msg
  if pfx.length > 0 then pfx ++ line else line

/-- The full render of a record: `logHijacker` applied to the `FormatTime` result
of the owning Logger's TimeFormat (the Logger's Prefix is `pfx`). -/
def renderLine (render : String → Nat → String) (pfx : String) (lvl : Level)
    (timeFormat : String) (t : Nat) (msg : String) : String :=
  logHijacker pfx lvl (FormatTime render timeFormat t) msg

/-- Join fields with single separating spaces. -/
def joinFields : List String → String
  | [] => ""
  | [s] => s
  | s :: rest => s ++ " " ++ joinFields rest

/-- Stated from the spec's words, for comparison with `logHijacker`: the prefix
bytes prepended raw to the non-empty fields among level tag, timestamp and message,
joined by exactly one space, with no trailing space. -/
def renderSpec (pfx tag timeText msg : String) : String :=
  pfx ++ joinFields ([tag, timeText, msg].filter (fun s => decide (s ≠ "")))

/-! ### Child registry (`loggerMap`, logger.go:371-404) -/

/-- Go string indexing `s[i]` with an `int` index: the byte at `i`, out-of-range
(including a negative index) is a runtime panic, embedded as `none`. -/
def goIndex (s : String) (i : Int) : Option Char :=
  if i < 0 then none else s.data[i.toNat]?

/-- Go map lookup for the registry's `Items`; insertion conses in front, so the
first match is the current binding (later inserts shadow earlier ones). -/
def lookupName (items : List (String × Nat)) (name : String) : Option Nat :=
  match items with
  | [] => none
  | (k, v) :: rest => if k = name then some v else lookupName rest name

/-- The child-prefix computation of `loggerMap.getOrAdd` (logger.go:391-396):
`prefix := name`, and when the last byte `name[len(prefix)-1]` is not `' '` append
`": "`.  The index is taken without checking that `name` is non-empty, so the empty
name panics (`none`). -/
def childPfx (name : String) : Option String :=
  match goIndex name ((name.length : Int) - 1) with
  | none => none
  | some lb => some (if lb ≠ ' ' then name ++ ": " else name)

/-- `loggerMap.getOrAdd` (logger.go:382-404) run without interleaving: return the
existing binding on a hit; on a miss clone the parent (the clone embedded as the
fresh id `nextId`), compute its prefix, and insert.  `none` is the panic on the
empty name. -/
def getOrAdd (items : List (String × Nat)) (name : String) (nextId : Nat) :
    Option (List (String × Nat) × Nat) :=
  match lookupName items name with
  | some id => some (items, id)
  | none =>
      match childPfx name with
      | none => none
      | some _ => some ((name, nextId) :: items, nextId)

/-- Program counter of one thread running `loggerMap.getOrAdd`:
`ready` is before the read-locked lookup; `toInsert id` is after a miss and the
clone (holding the new child `id`), before the write-locked insert; `finished ret`
holds the returned child; `panicked` is the empty-name panic. -/
inductive TPC where
  | ready
  | toInsert (id : Nat)
  | finished (ret : Nat)
  | panicked
deriving DecidableEq

/-- Shared state of the registry: the map and the clone-allocation counter. -/
structure RegShared where
  items : List (String × Nat)
  nextId : Nat
deriving DecidableEq

/-- One atomic step of a thread in `loggerMap.getOrAdd`.  The read-locked lookup
(logger.go:383-388) together with the thread-local clone and prefix computation is
one step — the `RLock` region is the only shared access in it; the write-locked
blind insert `m.Items[name] = logger` (logger.go:399-401) is the other step.  The
insert does not re-check the map for a concurrent insertion of the same name. -/
def threadStep (name : String) (s : RegShared) (pc : TPC) : RegShared × TPC :=
  match pc with
  | .ready =>
      match lookupName s.items name with
      | some id => (s, .finished id)
      | none =>
          match childPfx name with
          | none => (s, .panicked)
          | some _ => ({ s with nextId := s.nextId + 1 }, .toInsert s.nextId)
  | .toInsert id => ({ s with items := (name, id) :: s.items }, .finished id)
  | .finished r => (s, .finished r)
  | .panicked => (s, .panicked)

/-- Run two threads, both calling `getOrAdd name` on the same registry, under a
schedule: `true` steps thread A, `false` steps thread B. -/
def runSched (name : String) (sched : List Bool) (s : RegShared) (p0 p1 : TPC) :
    RegShared × TPC × TPC :=
  match sched with
  | [] => (s, p0, p1)
  | t :: rest =>
      if t then
        let r := threadStep name s p0
        runSched name rest r.1 r.2 p1
      else
        let r := threadStep name s p1
        runSched name rest r.1 p0 r.2

/-! ### Logger objects on a heap (`Logger.Clone`, `Logger.SetPrefix`) -/

/-- The configuration cell of one `Logger` (logger.go:28-38).  Reference-typed
fields (`Printer`, the handler-chain slice, the `children` map) are embedded as
ids; the byte-slice Prefix as a string (`pfx`); the `sync.Once` guard as the flag
`onceDone`.  The mutex has no observable state of its own: each heap cell is a
distinct struct and so owns a distinct mutex. -/
structure LoggerObj where
  pfx : String
  lvl : Level
  timeFormat : String
  printerId : Nat
  handlersId : Nat
  onceDone : Bool
  childrenId : Nat
deriving DecidableEq

/-- A heap of Logger cells and of child registries, with allocation counters. -/
structure Heap where
  loggers : List (Nat × LoggerObj)
  registries : List (Nat × List (String × Nat))
  nextLoggerId : Nat
  nextRegId : Nat
deriving DecidableEq

def lookupLogger (l : List (Nat × LoggerObj)) (i : Nat) : Option LoggerObj :=
  match l with
  | [] => none
  | (k, o) :: rest => if k = i then some o else lookupLogger rest i

def lookupReg (l : List (Nat × List (String × Nat))) (i : Nat) :
    Option (List (String × Nat)) :=
  match l with
  | [] => none
  | (k, r) :: rest => if k = i then some r else lookupReg rest i

/-- Heap sanity: allocated ids are below the counters. -/
def HeapWF (h : Heap) : Prop :=
  ∀ p ∈ h.loggers, p.1 < h.nextLoggerId ∧ p.2.childrenId < h.nextRegId

instance (h : Heap) : Decidable (HeapWF h) := by
  unfold HeapWF; infer_instance

/-- `Logger.Clone` (logger.go:350-361): allocate a new Logger cell copying Prefix,
Level, TimeFormat, Printer and the handler-chain reference, with a fresh zero
`sync.Once`, a fresh mutex (a fresh cell), and a `newLoggerMap()` — a freshly
allocated empty child registry. -/
def Clone (h : Heap) (lid : Nat) : Option (Heap × Nat) :=
  match lookupLogger h.loggers lid with
  | none => none
  | some obj =>
      let newObj : LoggerObj :=
        { pfx := obj.pfx, lvl := obj.lvl, timeFormat := obj.timeFormat,
          printerId := obj.printerId, handlersId := obj.handlersId,
          onceDone := false, childrenId := h.nextRegId }
      some ({ loggers := (h.nextLoggerId, newObj) :: h.loggers,
              registries := (h.nextRegId, []) :: h.registries,
              nextLoggerId := h.nextLoggerId + 1,
              nextRegId := h.nextRegId + 1 }, h.nextLoggerId)

/-- Overwrite the Prefix of the cell with id `lid`, leaving other cells alone. -/
def updCell (lid : Nat) (s : String) (p : Nat × LoggerObj) : Nat × LoggerObj :=
  if p.1 = lid then (p.1, { p.2 with pfx := s }) else p

/-- `Logger.SetPrefix` (logger.go:125-130): overwrite the Prefix bytes of the cell
`lid` under its lock; all other cells are untouched. -/
def setPfx (h : Heap) (lid : Nat) (s : String) : Heap :=
  { h with loggers := h.loggers.map (updCell lid s) }

/-! ### Helper lemmas -/

theorem handledFrom_of_all_false (r : Log) :
    ∀ (hs : List Handler) (i : Nat), (∀ g ∈ hs, g r = false) →
      handledFrom hs r i = (false, List.range' i hs.length)
  | [], i, _ => rfl
  | g :: rest, i, hall => by
      have hg : g r = false := hall g (List.mem_cons_self g rest)
      have ih := handledFrom_of_all_false r rest (i + 1)
        (fun x hx => hall x (List.mem_cons_of_mem g hx))
      simp [handledFrom, hg, ih, List.range'_succ]

theorem handledFrom_first_true (r : Log) (h : Handler) (post : List Handler)
    (hh : h r = true) :
    ∀ (pre : List Handler) (i : Nat), (∀ g ∈ pre, g r = false) →
      handledFrom (pre ++ h :: post) r i = (true, List.range' i (pre.length + 1))
  | [], i, _ => by simp [handledFrom, hh, List.range'_succ]
  | g :: rest, i, hall => by
      have hg : g r = false := hall g (List.mem_cons_self g rest)
      have ih := handledFrom_first_true r h post hh rest (i + 1)
        (fun x hx => hall x (List.mem_cons_of_mem g hx))
      simp [handledFrom, hg, ih, List.range'_succ]

theorem invokes_any_isSinkE (l : List Nat) :
    (l.map Event.invoke).any isSinkE = false := by
  induction l with
  | nil => rfl
  | cons a t ih => simp [isSinkE, ih]

theorem invokes_filter_isSinkE (l : List Nat) :
    (l.map Event.invoke).filter isSinkE = [] := by
  induction l with
  | nil => rfl
  | cons a t ih => simp [isSinkE, ih]

theorem invokes_filter_isReleaseE (l : List Nat) :
    (l.map Event.invoke).filter isReleaseE = [] := by
  induction l with
  | nil => rfl
  | cons a t ih => simp [isReleaseE, ih]

/-! ### Claim theorems -/

/-- Claim C1: for every level L and configured threshold T, a leveled print call at
L causes a sink emission iff T >= L, while a level-less call (`Print`/`Println`,
carrying the level-less tier `DisableLevel`) always proceeds to emission regardless
of T, including when T is the disabled tier.  (No handler is installed, so default
emission is the observable.) -/
theorem c1_level_filtering (T L : Level) (self : Nat) (pool : List Log)
    (msg : String) (nl : Bool) (now : Nat) :
    hasSink (printGo T [] self pool L msg nl now) = decide (T ≥ L)
    ∧ hasSink (printInvoke T [] self pool (Print msg) now) = true
    ∧ hasSink (printInvoke T [] self pool (Println msg) now) = true := by
  refine ⟨?_, ?_, ?_⟩
  · by_cases hTL : T ≥ L
    · cases nl <;> simp [printGo, hTL, handledFrom, hasSink, isSinkE]
    · simp [printGo, hTL, hasSink]
  · simp [printInvoke, Print, printGo, DisableLevel, Nat.zero_le, handledFrom,
      hasSink, isSinkE]
  · simp [printInvoke, Println, printGo, DisableLevel, Nat.zero_le, handledFrom,
      hasSink, isSinkE]

/-- Claim C2: dispatch over the handler chain invokes handlers in registration
order and stops at the first one returning true — the invocation trace of a chain
`pre ++ h :: post` whose `pre` all decline and whose `h` accepts is exactly the
indices `0 .. pre.length` (so `post` is never invoked); a chain none of whose
handlers accepts (in particular the empty chain) yields false after invoking all
of them; and when the chain handles a record, no sink write occurs in that
`print` call. -/
theorem c2_handler_dispatch (r : Log) (pre post hs : List Handler) (h : Handler)
    (hpre : ∀ g ∈ pre, g r = false) (hh : h r = true)
    (hnone : ∀ g ∈ hs, g r = false) :
    handledFrom (pre ++ h :: post) r 0 = (true, List.range (pre.length + 1))
    ∧ handledFrom hs r 0 = (false, List.range hs.length)
    ∧ handled [] r = false
    ∧ (∀ (chain : List Handler) (T L : Level) (self : Nat) (pool : List Log)
        (msg : String) (nl : Bool) (now : Nat),
        handled chain (acquireLog self pool L msg nl now).1 = true →
        hasSink (printGo T chain self pool L msg nl now) = false) := by
  refine ⟨?_, ?_, rfl, ?_⟩
  · rw [handledFrom_first_true r h post hh pre 0 hpre, List.range_eq_range']
  · rw [handledFrom_of_all_false r hs 0 hnone, List.range_eq_range']
  · intro chain T L self pool msg nl now hhandled
    unfold handled at hhandled
    by_cases hTL : T ≥ L
    · simp only [printGo, if_pos hTL]
      simp [hhandled, hasSink, isSinkE, List.any_append, invokes_any_isSinkE]
    · simp [printGo, hTL, hasSink]

/-- Witness for C2 at a concrete chain: the first handler declines, the second
accepts, the third is never invoked; a chain of two declining handlers returns
false; a handled record produces no sink write. -/
theorem c2_handler_dispatch_witness :
    handledFrom
        ([fun _ => false] ++ (fun _ => true) :: [fun _ => true])
        ⟨0, 3, "m", 0, true⟩ 0
      = (true, List.range 2)
    ∧ handledFrom [fun _ => false, fun _ => false] ⟨0, 3, "m", 0, true⟩ 0
      = (false, List.range 2)
    ∧ handled [] ⟨0, 3, "m", 0, true⟩ = false
    ∧ hasSink (printGo 3 [fun _ => true] 0 [] 3 "m" true 0) = false := by
  have := c2_handler_dispatch ⟨0, 3, "m", 0, true⟩
    [fun _ => false] [fun _ => true] [fun _ => false, fun _ => false]
    (fun _ => true)
    (by intro g hg; rcases List.mem_singleton.mp hg with rfl; rfl) rfl
    (by
      intro g hg
      rcases List.mem_cons.mp hg with rfl | hg2
      · rfl
      · rcases List.mem_singleton.mp hg2 with rfl; rfl)
  exact ⟨this.1, this.2.1, this.2.2.1,
    this.2.2.2 [fun _ => true] 3 3 0 [] "m" true 0 rfl⟩

/-- Claim C5: every print call that passes the level filter releases the acquired
record back to the pool exactly once, on every path — whatever the handler chain
does (including handling the record) and whatever the newline flag is, the trace
contains exactly one release event, of the acquired record. -/
theorem c5_release_exactly_once (T : Level) (chain : List Handler) (self : Nat)
    (pool : List Log) (L : Level) (msg : String) (nl : Bool) (now : Nat)
    (hpass : T ≥ L) :
    (printGo T chain self pool L msg nl now).filter isReleaseE
      = [Event.release (acquireLog self pool L msg nl now).1] := by
  simp only [printGo, if_pos hpass]
  cases hb : (handledFrom chain (acquireLog self pool L msg nl now).1 0).1 <;>
    cases nl <;>
      simp [hb, isReleaseE, List.filter_append, invokes_filter_isReleaseE]

/-- Witness for C5: a handled call at threshold still releases exactly once. -/
theorem c5_release_witness :
    ((3 : Level) ≥ 3)
    ∧ (printGo 3 [fun _ => true] 0 [] 3 "m" true 0).filter isReleaseE
        = [Event.release (acquireLog 0 [] 3 "m" true 0).1] :=
  ⟨by decide, c5_release_exactly_once 3 [fun _ => true] 0 [] 3 "m" true 0
    (by decide)⟩

/-- Claim C10: every leveled public print method (Log, Logf, Error, Errorf, Warn,
Warnf, Info, Infof, Debug, Debugf) and Println request newline-terminated emission
while Print does not; and in the unhandled case the dispatcher performs the sink's
write-with-newline operation exactly when the record's newline flag is set and the
plain write otherwise. -/
theorem c10_newline_dispatch (L : Level) (m : String) (T : Level)
    (chain : List Handler) (self : Nat) (pool : List Log) (now : Nat) (nl : Bool)
    (hpass : T ≥ L)
    (hunh : handled chain (acquireLog self pool L m nl now).1 = false) :
    ((Print m).newLine = false ∧ (Println m).newLine = true
      ∧ (LogM L m).newLine = true ∧ (Logf L m).newLine = true
      ∧ (ErrorM m).newLine = true ∧ (Errorf m).newLine = true
      ∧ (Warn m).newLine = true ∧ (Warnf m).newLine = true
      ∧ (Info m).newLine = true ∧ (Infof m).newLine = true
      ∧ (Debug m).newLine = true ∧ (Debugf m).newLine = true)
    ∧ (printGo T chain self pool L m nl now).filter isSinkE
        = [if nl then Event.sinkPrintln (acquireLog self pool L m nl now).1
           else Event.sinkPrint (acquireLog self pool L m nl now).1] := by
  constructor
  · exact ⟨rfl, rfl, rfl, rfl, rfl, rfl, rfl, rfl, rfl, rfl, rfl, rfl⟩
  · unfold handled at hunh
    simp only [printGo, if_pos hpass]
    cases nl <;>
      simp [hunh, isSinkE, List.filter_append, invokes_filter_isSinkE]

/-- Witness for C10 at a concrete unhandled call with the newline flag set. -/
theorem c10_newline_witness :
    (((Print "x").newLine = false ∧ (Println "x").newLine = true
      ∧ (LogM 3 "x").newLine = true ∧ (Logf 3 "x").newLine = true
      ∧ (ErrorM "x").newLine = true ∧ (Errorf "x").newLine = true
      ∧ (Warn "x").newLine = true ∧ (Warnf "x").newLine = true
      ∧ (Info "x").newLine = true ∧ (Infof "x").newLine = true
      ∧ (Debug "x").newLine = true ∧ (Debugf "x").newLine = true)
    ∧ (printGo 3 [] 0 [] 3 "x" true 0).filter isSinkE
        = [if true then Event.sinkPrintln (acquireLog 0 [] 3 "x" true 0).1
           else Event.sinkPrint (acquireLog 0 [] 3 "x" true 0).1]) :=
  c10_newline_dispatch 3 "x" 3 [] 0 [] 0 true (by decide) rfl

/-- Claim C8: pool acquisition fully overwrites the record's Level, Message, Time
and NewLine fields with the values of the current call, whether the record is
reused from the idle set or newly constructed. -/
theorem c8_acquire_overwrites (self : Nat) (pool : List Log) (level : Level)
    (msg : String) (nl : Bool) (now : Nat) :
    (acquireLog self pool level msg nl now).1.lvl = level
    ∧ (acquireLog self pool level msg nl now).1.message = msg
    ∧ (acquireLog self pool level msg nl now).1.time = now
    ∧ (acquireLog self pool level msg nl now).1.newLine = nl := by
  cases pool <;> simp [acquireLog]

theorem string_eq_empty_of_length (s : String) (h : s.length = 0) : s = "" := by
  cases s with
  | mk d => simp [String.length] at h; simp [h]

theorem logHijacker_eq_append (pfx : String) (lvl : Level) (tt m : String) :
    logHijacker pfx lvl tt m = pfx ++ hijackLine lvl tt m := by
  unfold logHijacker
  by_cases hp : pfx.length > 0
  · simp [hp]
  · have hz : pfx = "" := string_eq_empty_of_length pfx (Nat.eq_zero_of_not_pos hp)
    subst hz
    simp [String.empty_append]

theorem hijackLine_eq_joinFields (lvl : Level) (tt m : String) (hm : m ≠ "") :
    hijackLine lvl tt m
      = joinFields (([GetTextForLevel lvl, tt, m]).filter
          (fun s => decide (s ≠ ""))) := by
  unfold hijackLine
  by_cases htag : GetTextForLevel lvl = "" <;> by_cases ht : tt = "" <;>
    simp [htag, ht, hm, joinFields, String.empty_append, String.append_assoc]

/-- Counterexample to claim C3 as stated: the claim quantifies over every record,
but at an empty message with a non-empty level tag the rendered line carries a
trailing space — `logHijacker` at Prefix "", empty TimeFormat, Info level and
message "" renders "INFO ", not the space-joined non-empty fields "INFO". -/
theorem c3_counterexample :
    logHijacker "" InfoLevel "" "" = "INFO "
    ∧ renderSpec "" (GetTextForLevel InfoLevel) "" "" = "INFO"
    ∧ logHijacker "" InfoLevel "" ""
        ≠ renderSpec "" (GetTextForLevel InfoLevel) "" "" := by
  decide

/-- Claim C3 (amended): for every record with a NON-EMPTY message, the formatter
renders exactly Prefix ++ [LevelTag] [Timestamp] Message — the level tag is
omitted for the level-less tier, the timestamp is omitted when TimeFormat is
empty, one space separates adjacent non-empty fields with no trailing space, the
Prefix bytes are prepended raw; with Prefix "svc: ", empty TimeFormat, Info level
and message "ready" the line is exactly "svc: INFO ready".  (When the message is
empty and the tag or timestamp is not, the line ends in one trailing space.) -/
theorem c3_formatting (render : String → Nat → String) (pfx : String)
    (lvl : Level) (timeText msg : String) (t : Nat) (hm : msg ≠ "") :
    logHijacker pfx lvl timeText msg
      = renderSpec pfx (GetTextForLevel lvl) timeText msg
    ∧ FormatTime render "" t = ""
    ∧ GetTextForLevel DisableLevel = ""
    ∧ renderLine render "svc: " InfoLevel "" t "ready" = "svc: INFO ready" := by
  refine ⟨?_, rfl, rfl, ?_⟩
  · rw [logHijacker_eq_append, renderSpec,
      hijackLine_eq_joinFields lvl timeText msg hm]
  · have hft : FormatTime render "" t = "" := rfl
    simp only [renderLine, hft]
    decide

/-- Witness for C3 (amended) at the spec's own concrete instance. -/
theorem c3_formatting_witness :
    logHijacker "svc: " InfoLevel "" "ready"
      = renderSpec "svc: " (GetTextForLevel InfoLevel) "" "ready"
    ∧ FormatTime (fun _ _ => "TS") "" 5 = ""
    ∧ GetTextForLevel DisableLevel = ""
    ∧ renderLine (fun _ _ => "TS") "svc: " InfoLevel "" 5 "ready"
      = "svc: INFO ready" :=
  c3_formatting (fun _ _ => "TS") "svc: " InfoLevel "" "ready" 5 (by decide)

/-- Counterexample to claim C6 as stated: '\t' is whitespace, so by the claim the
name "x\t" (ending in whitespace) keeps its prefix unchanged; the code only
compares the last byte against the space character and appends ": ". -/
theorem c6_counterexample :
    ('\t').isWhitespace = true
    ∧ childPfx "x\t" = some "x\t: "
    ∧ ("x\t: " : String) ≠ "x\t" := by
  decide

/-- Claim C6 (amended): on a first request, the stored child's prefix equals
name ++ ": " when the name's last byte is not the space character ' ', and equals
the unchanged name when its last byte is ' ' (the code checks the space byte only,
not general whitespace). -/
theorem c6_child_pfx (name : String) (c : Char)
    (hlast : name.data.getLast? = some c) :
    childPfx name = some (if c = ' ' then name else name ++ ": ") := by
  have hne : name.data ≠ [] := by
    intro h0
    rw [h0] at hlast
    simp at hlast
  have hdl : name.length = name.data.length := by
    cases name
    simp [String.length]
  have hlen : 1 ≤ name.length := by
    rw [hdl]
    rcases Nat.eq_zero_or_pos name.data.length with h0 | h1
    · exact absurd (List.length_eq_zero.mp h0) hne
    · exact h1
  unfold childPfx goIndex
  have hnn : ¬ ((name.length : Int) - 1 < 0) := by omega
  rw [if_neg hnn]
  have htn : ((name.length : Int) - 1).toNat = name.length - 1 := by omega
  rw [htn, hdl, ← List.getLast?_eq_getElem? name.data, hlast]
  by_cases hc : c = ' '
  · simp [hc]
  · simp [hc]

/-- Witness for C6 (amended): "db" gets "db: "; "db " (trailing space) is kept. -/
theorem c6_child_pfx_witness :
    childPfx "db" = some (if 'b' = ' ' then "db" else "db" ++ ": ")
    ∧ childPfx "db " = some (if ' ' = ' ' then "db " else "db " ++ ": ") :=
  ⟨c6_child_pfx "db" 'b' (by decide), c6_child_pfx "db " ' ' (by decide)⟩

/-- Claim C9: when the registry does not yet contain the empty-string name,
`getOrAdd ""` indexes the last byte of the name without a non-emptiness check —
an out-of-range index (a panic, embedded as `none`) instead of a child Logger. -/
theorem c9_child_empty_name (items : List (String × Nat)) (nextId : Nat)
    (habs : lookupName items "" = none) :
    childPfx "" = none ∧ getOrAdd items "" nextId = none := by
  refine ⟨rfl, ?_⟩
  unfold getOrAdd
  rw [habs]
  rfl

/-- Witness for C9 on the empty registry. -/
theorem c9_child_empty_name_witness :
    lookupName [] "" = none
    ∧ (childPfx "" = none ∧ getOrAdd [] "" 0 = none) :=
  ⟨rfl, c9_child_empty_name [] 0 rfl⟩

/-- Claim C4 is violated by the code (`loggerMap.getOrAdd` inserts blindly under
the write lock, without re-checking the map): under the interleaving read-A,
read-B, insert-A, insert-B of two first-time `Child "db"` calls, thread A returns
child 0 while thread B returns child 1 and the registry stores child 1 — two
distinct usable instances referenced by different callers, the losing derivation
returned rather than discarded. -/
theorem c4_race_two_instances :
    runSched "db" [true, false, true, false] ⟨[], 0⟩ TPC.ready TPC.ready
      = (⟨[("db", 1), ("db", 0)], 2⟩, TPC.finished 0, TPC.finished 1)
    ∧ TPC.finished 0 ≠ TPC.finished 1
    ∧ lookupName [("db", 1), ("db", 0)] "db" = some 1 := by
  decide

theorem lookupLogger_mem :
    ∀ (l : List (Nat × LoggerObj)) (i : Nat) (o : LoggerObj),
      lookupLogger l i = some o → (i, o) ∈ l
  | [], i, o, h => by simp [lookupLogger] at h
  | (k, obj) :: rest, i, o, h => by
      by_cases hk : k = i
      · subst hk
        rw [lookupLogger, if_pos rfl] at h
        injection h with h2
        subst h2
        exact List.mem_cons_self _ _
      · rw [lookupLogger, if_neg hk] at h
        exact List.mem_cons_of_mem _ (lookupLogger_mem rest i o h)

theorem lookupLogger_map_updCell :
    ∀ (l : List (Nat × LoggerObj)) (j : Nat) (s : String) (i : Nat), i ≠ j →
      lookupLogger (l.map (updCell j s)) i = lookupLogger l i
  | [], _, _, _, _ => rfl
  | (k, o) :: rest, j, s, i, hne => by
      rw [List.map_cons]
      by_cases hj : k = j
      · have h1 : updCell j s (k, o) = (k, { o with pfx := s }) := by
          unfold updCell
          simp [hj]
        have hki : ¬ (k = i) := fun hk => hne (hk ▸ hj)
        rw [h1]
        simp only [lookupLogger]
        rw [if_neg hki, if_neg hki]
        exact lookupLogger_map_updCell rest j s i hne
      · have h1 : updCell j s (k, o) = (k, o) := by
          unfold updCell
          simp [hj]
        rw [h1]
        by_cases hki : k = i
        · simp only [lookupLogger]
          rw [if_pos hki, if_pos hki]
        · simp only [lookupLogger]
          rw [if_neg hki, if_neg hki]
          exact lookupLogger_map_updCell rest j s i hne

/-- Claim C7: after `Clone`, setting the clone's Prefix does not alter the
parent's and setting the parent's does not alter the clone's; the clone starts
with the parent's Prefix, Level, TimeFormat, Printer and handler-chain reference,
and has a fresh cell (hence its own mutex), a fresh zero one-shot guard, and a
freshly allocated empty child registry distinct from the parent's. -/
theorem c7_clone_independence (h : Heap) (pid : Nat) (obj : LoggerObj)
    (h' : Heap) (cid : Nat) (s t : String)
    (hWF : HeapWF h) (hp : lookupLogger h.loggers pid = some obj)
    (hcl : Clone h pid = some (h', cid)) :
    cid ≠ pid
    ∧ lookupLogger h'.loggers cid
        = some { pfx := obj.pfx, lvl := obj.lvl, timeFormat := obj.timeFormat,
                 printerId := obj.printerId, handlersId := obj.handlersId,
                 onceDone := false, childrenId := h.nextRegId }
    ∧ obj.childrenId ≠ h.nextRegId
    ∧ lookupReg h'.registries h.nextRegId = some []
    ∧ lookupLogger (setPfx h' cid s).loggers pid = some obj
    ∧ lookupLogger (setPfx h' pid t).loggers cid
        = some { pfx := obj.pfx, lvl := obj.lvl, timeFormat := obj.timeFormat,
                 printerId := obj.printerId, handlersId := obj.handlersId,
                 onceDone := false, childrenId := h.nextRegId } := by
  unfold Clone at hcl
  rw [hp] at hcl
  have hcl2 := Option.some.inj hcl
  have hh' := (congrArg Prod.fst hcl2).symm
  have hcid : cid = h.nextLoggerId := (congrArg Prod.snd hcl2).symm
  have hpidlt : pid < h.nextLoggerId :=
    (hWF (pid, obj) (lookupLogger_mem h.loggers pid obj hp)).1
  have hreglt : obj.childrenId < h.nextRegId :=
    (hWF (pid, obj) (lookupLogger_mem h.loggers pid obj hp)).2
  have hcp : cid ≠ pid := by omega
  subst hh'
  refine ⟨hcp, ?_, by omega, ?_, ?_, ?_⟩
  · rw [hcid]
    simp [lookupLogger]
  · simp [lookupReg]
  · simp only [setPfx]
    rw [lookupLogger_map_updCell _ cid s pid (fun he => hcp he.symm)]
    have hpn : ¬ (h.nextLoggerId = pid) := by omega
    simp only [lookupLogger, if_neg hpn]
    exact hp
  · simp only [setPfx]
    rw [lookupLogger_map_updCell _ pid t cid hcp]
    rw [hcid]
    simp [lookupLogger]

/-- Witness for C7 on a one-logger heap: the clone is cell 1, the parent cell 0;
prefix writes on either do not reach the other. -/
theorem c7_clone_witness :
    (1 : Nat) ≠ 0
    ∧ lookupLogger
        (Heap.mk [(1, ⟨"p", 3, "tf", 7, 8, false, 1⟩), (0, ⟨"p", 3, "tf", 7, 8, true, 0⟩)]
          [(1, []), (0, [])] 2 2).loggers 1
        = some ⟨"p", 3, "tf", 7, 8, false, 1⟩
    ∧ (LoggerObj.mk "p" 3 "tf" 7 8 true 0).childrenId ≠ 1
    ∧ lookupReg
        (Heap.mk [(1, ⟨"p", 3, "tf", 7, 8, false, 1⟩), (0, ⟨"p", 3, "tf", 7, 8, true, 0⟩)]
          [(1, []), (0, [])] 2 2).registries 1
        = some []
    ∧ lookupLogger
        (setPfx
          (Heap.mk [(1, ⟨"p", 3, "tf", 7, 8, false, 1⟩), (0, ⟨"p", 3, "tf", 7, 8, true, 0⟩)]
            [(1, []), (0, [])] 2 2) 1 "a").loggers 0
        = some ⟨"p", 3, "tf", 7, 8, true, 0⟩
    ∧ lookupLogger
        (setPfx
          (Heap.mk [(1, ⟨"p", 3, "tf", 7, 8, false, 1⟩), (0, ⟨"p", 3, "tf", 7, 8, true, 0⟩)]
            [(1, []), (0, [])] 2 2) 0 "b").loggers 1
        = some ⟨"p", 3, "tf", 7, 8, false, 1⟩ :=
  c7_clone_independence
    (Heap.mk [(0, ⟨"p", 3, "tf", 7, 8, true, 0⟩)] [(0, [])] 1 1) 0
    ⟨"p", 3, "tf", 7, 8, true, 0⟩
    (Heap.mk [(1, ⟨"p", 3, "tf", 7, 8, false, 1⟩), (0, ⟨"p", 3, "tf", 7, 8, true, 0⟩)]
      [(1, []), (0, [])] 2 2) 1 "a" "b"
    (by decide) rfl rfl

end Golog
